import Mathlib

/-!
Verification of the OpenAgent agent runtime against its specification.

Each Python module that the checked claims touch is shallowly embedded as
Lean definitions that mirror the source line by line: pure functions become
Lean functions, SQLite-backed state becomes explicit record passing, and
Python `int` / `str` become `Int`/`Nat` and `String`.  The theorems at the
end of the file settle the claims against these definitions.
-/

namespace OpenAgent

/-! ## Python string and truthiness helpers

Small helpers embedding the Python primitives the source leans on:
`len(text) // 4 + 1`, `str.strip`, truthiness of `str | None`, and
list-of-characters slicing (`s[:n]`). -/

/-- Python truthiness of an optional string: `None` and `""` are falsy. -/
def pyTruthy : Option String → Bool
  | none => false
  | some s => s ≠ ""

/-- Characters Python `str.strip()` removes: space, tab, LF, CR, VT, FF. -/
def isPySpace (c : Char) : Bool :=
  c = ' ' || c = '\t' || c = '\n' || c = '\r' || c = Char.ofNat 11 || c = Char.ofNat 12

/-- Python `s.strip()`: drop leading and trailing whitespace. -/
def pyStrip (s : String) : String :=
  String.mk (((s.data.dropWhile isPySpace).reverse.dropWhile isPySpace).reverse)

/-- Python slicing `s[:n]` on a string, as `take` on its character list. -/
def strTake (s : String) (n : Nat) : String :=
  String.mk (s.data.take n)

/-- Python `s.split(sep)` for a one-character separator, over character
lists (e.g. `"a,,b"` gives `["a", "", "b"]`, `""` gives `[""]`). -/
def splitChar (sep : Char) : List Char → List (List Char)
  | [] => [[]]
  | c :: t =>
    if c = sep then [] :: splitChar sep t
    else
      match splitChar sep t with
      | [] => [[c]]
      | h :: r => (c :: h) :: r

/-! ## openagent/telemetry/tokens.py -/

namespace Tokens

/-- `TokenUsage`: token usage for a single request (tokens.py). -/
structure TokenUsage where
  input_tokens : Int
  output_tokens : Int
  model : String
deriving Repr, DecidableEq

/-- `TokenUsage.total` (tokens.py). -/
def TokenUsage.total (u : TokenUsage) : Int :=
  u.input_tokens + u.output_tokens

/-- `SessionTokenStats` (tokens.py); the cost field is omitted, no checked
claim mentions it. -/
structure SessionTokenStats where
  total_input : Int
  total_output : Int
  request_count : Nat
deriving Repr, DecidableEq

/-- `SessionTokenStats.total_tokens` (tokens.py). -/
def SessionTokenStats.total_tokens (s : SessionTokenStats) : Int :=
  s.total_input + s.total_output

/-- `TokenTracker`: the session id is fixed, and the `token_usage` rows the
tracker's SQL queries see for that session are carried explicitly. -/
structure TokenTracker where
  budget : Option Int
  rows : List TokenUsage
deriving Repr, DecidableEq

/-- `TokenTracker.record`: append one row (tokens.py `record`, the INSERT). -/
def TokenTracker.record (t : TokenTracker) (u : TokenUsage) : TokenTracker :=
  { t with rows := t.rows ++ [u] }

/-- `TokenTracker.get_session_stats`: the SUM/COUNT aggregate query
(tokens.py).  The cache only memoizes this value, so it is dropped. -/
def TokenTracker.get_session_stats (t : TokenTracker) : SessionTokenStats :=
  { total_input := (t.rows.map (·.input_tokens)).sum
    total_output := (t.rows.map (·.output_tokens)).sum
    request_count := t.rows.length }

/-- `TokenTracker.get_budget_remaining` (tokens.py):
`None` if no budget, else `max(0, budget - total_tokens)`. -/
def TokenTracker.get_budget_remaining (t : TokenTracker) : Option Int :=
  match t.budget with
  | none => none
  | some b => some (max 0 (b - t.get_session_stats.total_tokens))

/-- `TokenTracker.get_budget_percentage` (tokens.py):
`None` if no budget, else `min(100.0, (total_tokens / budget) * 100)`.
Python float arithmetic is modelled exactly over `ℚ`; for `budget = 0`
Python raises `ZeroDivisionError`, so theorems assume a nonzero budget. -/
def TokenTracker.get_budget_percentage (t : TokenTracker) : Option ℚ :=
  match t.budget with
  | none => none
  | some b =>
    some (min 100 (((t.get_session_stats.total_tokens : ℚ) / (b : ℚ)) * 100))

/-- `TokenTracker.is_over_budget` (tokens.py):
`remaining is not None and remaining <= 0`. -/
def TokenTracker.is_over_budget (t : TokenTracker) : Bool :=
  match t.get_budget_remaining with
  | none => false
  | some r => r ≤ 0

end Tokens

/-! ## openagent/core/intent.py -/

namespace IntentMod

/-- `IntentType` (intent.py). -/
inductive IntentType where
  | research
  | organize
  | control
deriving Repr, DecidableEq

/-- The value found under `"entities"`: the model may return either a
comma-joined string or a list (intent.py handles both via `isinstance`). -/
inductive EntitiesValue where
  | ofString (s : String)
  | ofList (l : List String)
deriving Repr, DecidableEq

/-- The input dictionary of `Intent.from_dict`, with each key optional
(`data.get(...)` with defaults); the numeric `confidence` is over `ℚ`. -/
structure IntentData where
  intent_type : Option String := none
  entities : Option EntitiesValue := none
  action : Option String := none
  query : Option String := none
  reasoning : Option String := none
  confidence : Option ℚ := none
deriving Repr, DecidableEq

/-- `Intent` (intent.py). -/
structure Intent where
  type : IntentType
  entities : List String
  action : String
  query : String
  reasoning : String
  confidence : ℚ
deriving Repr, DecidableEq

/-- Python `e.strip() for e in s.split(",") if e.strip()`. -/
def splitEntities (s : String) : List String :=
  (((splitChar ',' s.data).map (fun l => pyStrip (String.mk l))).filter (· ≠ ""))

/-- The entity normalisation as the spec words it, applied to tokens given
as a list: "the ordered list of non-empty, whitespace-trimmed tokens". -/
def specEntityTokensOfList (l : List String) : List String :=
  (l.map pyStrip).filter (· ≠ "")

/-- The entity normalisation as the spec words it, applied to a
comma-joined string: its comma-separated tokens, trimmed, empties
dropped, order kept. -/
def specEntityTokensOfString (s : String) : List String :=
  specEntityTokensOfList ((splitChar ',' s.data).map String.mk)

/-- `Intent.from_dict` (intent.py lines 35-55):
unknown `intent_type` falls back to research; a string under `"entities"`
is split on commas, stripped and filtered, while a list is kept as is. -/
def Intent.from_dict (data : IntentData) : Intent :=
  let intent_type := data.intent_type.getD "research"
  let type_enum :=
    if intent_type = "research" then IntentType.research
    else if intent_type = "organize" then IntentType.organize
    else if intent_type = "control" then IntentType.control
    else IntentType.research
  let entities :=
    match data.entities with
    | none => []
    | some (.ofList l) => l
    | some (.ofString s) => splitEntities s
  { type := type_enum
    entities := entities
    action := data.action.getD "search"
    query := data.query.getD ""
    reasoning := data.reasoning.getD ""
    confidence := data.confidence.getD 1 }

end IntentMod

/-! ## openagent/memory/context.py -/

namespace Context

/-- `ContextConfig` (context.py); defaults as in the dataclass. -/
structure ContextConfig where
  max_tokens : Int := 8000
  reserved_for_response : Int := 1000
  recent_messages : Nat := 20
  always_include_system : Bool := true
  summarize_after : Nat := 30
  summary_max_tokens : Int := 500
  max_rag_tokens : Int := 2000
  max_rag_chunks : Nat := 5
deriving Repr, DecidableEq

/-- `ContextConfig.available_for_context` (context.py). -/
def ContextConfig.available_for_context (c : ContextConfig) : Int :=
  c.max_tokens - c.reserved_for_response

/-- The fields of conversation.py's `Message` that `build` reads.  The
writers only store API-reported or default-zero counts, so `token_count`
is a `Nat` (0 means unknown, matching the dataclass default). -/
structure Msg where
  role : String
  content : String
  token_count : Nat := 0
deriving Repr, DecidableEq

/-- A `{"role": ..., "content": ...}` dictionary handed to the LLM. -/
structure MsgDict where
  role : String
  content : String
deriving Repr, DecidableEq

/-- `ContextWindow` (context.py). -/
structure ContextWindow where
  messages : List MsgDict
  total_tokens : Int
  included_message_count : Nat
  truncated : Bool
  has_summary : Bool
  rag_chunks_used : Nat
deriving Repr, DecidableEq

/-- `ContextManager._estimate_tokens` (context.py): `len(text) // 4 + 1`. -/
def estimateTokens (text : String) : Int :=
  ((text.length / 4 + 1 : Nat) : Int)

/-- Python `s.count(pat)` for a nonempty pattern `p :: ps`: count of
non-overlapping occurrences, scanning left to right. -/
def countSubAux (p : Char) (ps : List Char) : List Char → Nat
  | [] => 0
  | c :: t =>
    if (p :: ps).isPrefixOf (c :: t) then countSubAux p ps (t.drop ps.length) + 1
    else countSubAux p ps t
termination_by l => l.length
decreasing_by
  all_goals simp [List.length_drop]
  omega

/-- `rag_context.count("---")` (context.py line 114). -/
def countDashes (s : String) : Nat :=
  countSubAux '-' ['-', '-'] s.data

/-- `history.get_recent(limit=n)` (conversation.py): the last `n` messages
in chronological order. -/
def getRecent (l : List Msg) (n : Nat) : List Msg :=
  l.drop (l.length - n)

/-- The token cost `build` charges a history message (context.py line 143):
`msg.token_count or self._estimate_tokens(msg.content)` — the stored count
unless it is the falsy 0. -/
def msgTokens (m : Msg) : Int :=
  if m.token_count = 0 then estimateTokens m.content else (m.token_count : Int)

/-- Running state of `build`: the message list and `total_tokens` so far. -/
structure BuildAcc where
  messages : List MsgDict
  total_tokens : Int
deriving Repr, DecidableEq

/-- Step 1 of `build` (context.py lines 97-101): the system prompt is
appended unconditionally when truthy — no budget check. -/
def sysStep (system_prompt : Option String) : BuildAcc :=
  if pyTruthy system_prompt then
    { messages := [⟨"system", system_prompt.getD ""⟩]
      total_tokens := estimateTokens (system_prompt.getD "") }
  else { messages := [], total_tokens := 0 }

/-- Step 2 of `build` (context.py lines 103-114): RAG context, capped at
`max_rag_tokens`, added only while it still fits under the budget. -/
def ragStep (config : ContextConfig) (budget : Int) (acc : BuildAcc)
    (rag_context : Option String) : BuildAcc × Nat :=
  if pyTruthy rag_context then
    let rcs := rag_context.getD ""
    let rag_tokens := min (estimateTokens rcs) config.max_rag_tokens
    if acc.total_tokens + rag_tokens < budget then
      ({ messages := acc.messages ++
            [⟨"system", "Relevant context from codebase:\n\n" ++ rcs⟩]
         total_tokens := acc.total_tokens + rag_tokens },
       countDashes rcs + 1)
    else (acc, 0)
  else (acc, 0)

/-- Step 3 of `build` (context.py lines 116-129): a cached summary is
added if the history is long enough and the summary fits.
`summaryCache` is `self._summary_cache.get(session_id)`, which is what
`_get_or_create_summary` returns. -/
def summaryStep (config : ContextConfig) (budget : Int) (acc : BuildAcc)
    (histLen : Nat) (summaryCache : Option String) : BuildAcc × Bool :=
  if histLen > config.summarize_after then
    if pyTruthy summaryCache then
      let s := summaryCache.getD ""
      let summary_tokens := estimateTokens s
      if acc.total_tokens + summary_tokens < budget then
        ({ messages := acc.messages ++
              [⟨"system", "Summary of earlier conversation:\n" ++ s⟩]
           total_tokens := acc.total_tokens + summary_tokens },
         true)
      else (acc, false)
    else (acc, false)
  else (acc, false)

/-- Result of step 4's message loop. -/
structure RecentFill where
  msgs : List MsgDict
  tokens : Int
  count : Nat
  truncated : Bool
deriving Repr, DecidableEq

/-- Step 4 of `build` (context.py lines 140-153): walk the recent messages
oldest to newest, adding each while `remaining_budget >= msg_tokens`,
breaking (and marking `truncated`) at the first that does not fit. -/
def addRecent : List Msg → Int → RecentFill
  | [], _ => ⟨[], 0, 0, false⟩
  | m :: rest, remaining =>
    let t := msgTokens m
    if t ≤ remaining then
      let r := addRecent rest (remaining - t)
      ⟨⟨m.role, m.content⟩ :: r.msgs, t + r.tokens, r.count + 1, r.truncated⟩
    else ⟨[], 0, 0, true⟩

/-- `ContextManager.build` (context.py lines 67-167).  `history` is the
session's chronological message list (`get_all`/`get_recent` read it),
`summaryCache` the manager's cached summary for the session. -/
def build (config : ContextConfig) (summaryCache : Option String)
    (history : List Msg) (user_message : String)
    (system_prompt : Option String) (rag_context : Option String) :
    ContextWindow :=
  let budget := config.available_for_context
  let acc1 := sysStep system_prompt
  let step2 := ragStep config budget acc1 rag_context
  let step3 := summaryStep config budget step2.1 history.length summaryCache
  let recent := getRecent history config.recent_messages
  let user_tokens := estimateTokens user_message
  let remaining_budget := budget - step3.1.total_tokens - user_tokens
  let fill := addRecent recent remaining_budget
  { messages := step3.1.messages ++ fill.msgs ++ [⟨"user", user_message⟩]
    total_tokens := step3.1.total_tokens + fill.tokens + user_tokens
    included_message_count := fill.count + 1
    truncated := fill.truncated
    has_summary := step3.2
    rag_chunks_used := step2.2 }

end Context

/-! ## openagent/memory/session.py -/

namespace SessionStore

/-- A row of the `sessions` table (session.py SCHEMA); timestamp and
metadata columns are omitted, no checked claim reads them. -/
structure SessionRow where
  id : String
  name : String
  codebase_path : Option String
deriving Repr, DecidableEq

/-- A row of the `messages` table (session.py SCHEMA). -/
structure MessageRow where
  id : Nat
  session_id : String
  role : String
  content : String
  token_count : Nat
deriving Repr, DecidableEq

/-- A row of the `token_usage` table (session.py SCHEMA). -/
structure TokenUsageRow where
  id : Nat
  session_id : String
  message_id : Option Nat
  input_tokens : Int
  output_tokens : Int
  model : String
deriving Repr, DecidableEq

/-- The three tables of the sessions database. -/
structure Store where
  sessions : List SessionRow
  messages : List MessageRow
  token_usage : List TokenUsageRow
deriving Repr, DecidableEq

/-- `SessionManager.delete` (session.py lines 185-192):
`DELETE FROM sessions WHERE id = ?` on a connection with
`PRAGMA foreign_keys = ON`.  Per the SCHEMA, `messages.session_id` and
`token_usage.session_id` are `REFERENCES sessions(id) ON DELETE CASCADE`,
and `token_usage.message_id REFERENCES messages(id) ON DELETE SET NULL`;
SQLite applies the whole cascade inside the single DELETE statement, which
this one-step state transition models.  Returns `rowcount > 0`. -/
def delete (st : Store) (session_id : String) : Store × Bool :=
  let deletedMsgIds :=
    (st.messages.filter (fun m => m.session_id == session_id)).map (·.id)
  let survivors := st.token_usage.filter (fun u => u.session_id != session_id)
  ({ sessions := st.sessions.filter (fun s => s.id != session_id)
     messages := st.messages.filter (fun m => m.session_id != session_id)
     token_usage := survivors.map (fun u =>
       match u.message_id with
       | some mid =>
         if deletedMsgIds.contains mid then { u with message_id := none } else u
       | none => u) },
   st.sessions.any (fun s => s.id == session_id))

end SessionStore

/-! ## openagent/core/agent.py -/

namespace AgentCore

/-- `LLMResponse` (llm.py): the reported usage counts are `Nat`, matching
what the OpenAI client reports (`usage.prompt_tokens if usage else 0`). -/
structure LLMResponse where
  content : String
  input_tokens : Nat
  output_tokens : Nat
  model : String
deriving Repr, DecidableEq

/-- The agent's turn-visible state: the recorded conversation (persistent
`ConversationHistory.add` and the in-memory tail record the same
role/content/token_count triple) and the token tracker. -/
structure AgentState where
  conversation : List Context.Msg
  tracker : Tokens.TokenTracker
deriving Repr, DecidableEq

/-- `Agent._record_message` (agent.py lines 107-112). -/
def _record_message (st : AgentState) (role content : String)
    (token_count : Nat) : AgentState :=
  { st with conversation := st.conversation ++ [⟨role, content, token_count⟩] }

/-- `Agent._record_usage` (agent.py lines 114-123), tracker present. -/
def _record_usage (st : AgentState) (resp : LLMResponse) : AgentState :=
  { st with tracker := st.tracker.record (Tokens.TokenUsage.mk
      (resp.input_tokens : Int) (resp.output_tokens : Int) resp.model) }

/-- `Agent.chat` (agent.py lines 164-195), with the LLM call abstracted to
its returned `LLMResponse`: record the user message, record usage, record
the assistant message with `token_count = response.output_tokens`. -/
def chat (st : AgentState) (message : String) (resp : LLMResponse) :
    AgentState × String :=
  let st1 := _record_message st "user" message 0
  let st2 := _record_usage st1 resp
  let st3 := _record_message st2 "assistant" resp.content resp.output_tokens
  (st3, resp.content)

/-- `Agent.chat_stream` (agent.py lines 197-224), with the LLM stream
abstracted to its chunk list: record the user message, concatenate the
chunks, record the assistant message with the default `token_count = 0`.
No call to `_record_usage` appears in this method. -/
def chat_stream (st : AgentState) (message : String) (chunks : List String) :
    AgentState × String :=
  let st1 := _record_message st "user" message 0
  let full_response := String.join chunks
  let st2 := _record_message st1 "assistant" full_response 0
  (st2, full_response)

end AgentCore

/-! ## openagent/server/handlers.py — streaming notifications -/

namespace Handlers

/-- A `chat.stream` notification payload (handlers.py lines 93-105):
either `{"chunk": ...}` or the terminal
`{"done": True, "tokens": stats?}`. -/
inductive ChatNotification where
  | chunk (s : String)
  | done (tokens : Option Tokens.SessionTokenStats)
deriving Repr, DecidableEq

/-- Whether a notification's payload carries `done: true`. -/
def ChatNotification.isDone : ChatNotification → Bool
  | .done _ => true
  | .chunk _ => false

/-- The observable outcome of iterating `agent.chat_stream` inside
`chat_send`: the chunks delivered before the stream either finished
(`ok = true`) or raised an exception caught by the `except` branch
(`ok = false`). -/
structure StreamRun where
  chunks : List String
  ok : Bool
deriving Repr, DecidableEq

/-- The `chat.stream` notifications `chat_send` emits for one streaming
turn (handlers.py lines 90-122): a chunk notification per received chunk,
then — only when the loop ends without an exception — the single done
notification; the `except` branch returns an error result dict without
notifying. -/
def chatSendStreamNotifs (run : StreamRun)
    (stats : Option Tokens.SessionTokenStats) : List ChatNotification :=
  run.chunks.map ChatNotification.chunk ++
    (if run.ok then [ChatNotification.done stats] else [])

end Handlers

/-! ## openagent/server/jsonrpc.py and handlers.py — session.load -/

namespace Rpc

/-- `ErrorCode.SESSION_NOT_FOUND` (protocol.py line 19). -/
def SESSION_NOT_FOUND : Int := -32001

/-- `ErrorCode.TOOL_NOT_FOUND` (protocol.py line 20). -/
def TOOL_NOT_FOUND : Int := -32002

/-- `ErrorCode.BUDGET_EXCEEDED` (protocol.py line 21). -/
def BUDGET_EXCEEDED : Int := -32003

/-- `ErrorCode.CANCELLED` (protocol.py line 22). -/
def CANCELLED : Int := -32004

/-- A parsed request frame (jsonrpc.py `Request`). -/
structure RequestFrame (π : Type) where
  method : String
  params : π
  id : Option Int
deriving Repr, DecidableEq

/-- What a handler coroutine does: return a value or raise. -/
inductive HandlerOutcome (α : Type) where
  | ok (v : α)
  | raised (msg : String)
deriving Repr, DecidableEq

/-- A response frame (jsonrpc.py `Response.to_dict`): exactly one of
`result` or `err` is set by the dispatcher. -/
structure ResponseFrame (α : Type) where
  id : Option Int
  result : Option α
  err : Option (Int × String)
deriving Repr, DecidableEq

/-- `JSONRPCServer._handle` (jsonrpc.py lines 117-135): unknown methods
get error −32601, a raising handler gets error −32603, a returning
handler's value is wrapped as a success result; notifications
(`id = None`) get no response frame. -/
def handle {π α : Type} (handlers : String → Option (π → HandlerOutcome α))
    (req : RequestFrame π) : Option (ResponseFrame α) :=
  match handlers req.method with
  | none =>
    match req.id with
    | some i => some ⟨some i, none, some (-32601, "Method not found: " ++ req.method)⟩
    | none => none
  | some h =>
    match h req.params with
    | .ok r =>
      match req.id with
      | some i => some ⟨some i, some r, none⟩
      | none => none
    | .raised e =>
      match req.id with
      | some i => some ⟨some i, none, some (-32603, e)⟩
      | none => none

/-- The params of `session.load`: `{"id": ...}`. -/
structure LoadParams where
  id : Option String
deriving Repr, DecidableEq

/-- What `session_load` returns: a session snapshot dict, or a plain
result dict `{"error": ...}`. -/
inductive SessionLoadResult where
  | errorDict (msg : String)
  | sessionDict (s : SessionStore.SessionRow)
deriving Repr, DecidableEq

/-- `Handlers.session_load` (handlers.py lines 164-186) on a server whose
session manager is initialized.  A falsy id or an unknown session produce
an ordinary result dictionary carrying an `"error"` string, never a
session-not-found error.  A *found* session, however, proceeds to
`_init_agent` (handlers.py lines 501-524), which constructs
`AzureOpenAIClient()`; that constructor raises `ValueError` whenever the
Azure endpoint or key are missing from the environment (llm.py lines
97-101) and nothing catches it before the dispatcher.  `llmInitError`
models that environment: `none` when the client constructs, `some msg`
when the constructor raises `ValueError(msg)`.  (The last-accessed update
does not affect the reply, and `_switch_rag_collection` catches its own
exceptions, handlers.py lines 57-65.) -/
def session_load (st : SessionStore.Store) (llmInitError : Option String)
    (params : LoadParams) : HandlerOutcome SessionLoadResult :=
  if pyTruthy params.id then
    let sid := params.id.getD ""
    match st.sessions.find? (fun s => s.id == sid) with
    | none => .ok (.errorDict ("Session not found: " ++ sid))
    | some s =>
      match llmInitError with
      | some e => .raised e
      | none => .ok (.sessionDict s)
  else .ok (.errorDict "No session ID provided")

/-- The handler table restricted to the one method the claim exercises
(`create_handlers` registers `session.load ↦ handlers.session_load`). -/
def sessionLoadOnly (st : SessionStore.Store) (llmInitError : Option String) :
    String → Option (LoadParams → HandlerOutcome SessionLoadResult) :=
  fun m => if m = "session.load" then some (session_load st llmInitError)
    else none

end Rpc

/-! ## openagent/core/tool_agent.py — the tool loop -/

namespace ToolLoop

/-- A single-quote character, used by the loop's summary text. -/
def squote : String := String.mk [Char.ofNat 39]

/-- `ToolCall` (executor.py): the params dict is held as rendered
key/value pairs; the loop never inspects it. -/
structure ToolCall where
  name : String
  params : List (String × String) := []
  reasoning : String := ""
deriving Repr, DecidableEq

/-- `ToolResult` (executor.py); `output : Any` is modelled by the string
Python would render for it. -/
structure ToolResult where
  success : Bool
  output : String := ""
  error : Option String := none
deriving Repr, DecidableEq

/-- `json.dumps` applied to the (string-modelled) tool output: quoted,
with backslash, quote and common control characters escaped. -/
def jsonDumpsChar (c : Char) : List Char :=
  if c = '\\' then ['\\', '\\']
  else if c = Char.ofNat 34 then ['\\', Char.ofNat 34]
  else if c = '\n' then ['\\', 'n']
  else if c = '\t' then ['\\', 't']
  else if c = '\r' then ['\\', 'r']
  else [c]

/-- `json.dumps` on a string value. -/
def jsonDumps (s : String) : String :=
  String.mk (Char.ofNat 34 :: (s.data.map jsonDumpsChar).flatten ++ [Char.ofNat 34])

/-- The `context_message` of one loop iteration (tool_agent.py lines
142-148): the raw message, plus the accumulated tool results when any. -/
def buildContextMessage (message : String)
    (tool_results : List (ToolCall × ToolResult)) : String :=
  if tool_results.isEmpty then message
  else
    let results_str := String.intercalate "\n"
      (tool_results.map (fun cr =>
        "Tool " ++ cr.1.name ++ " returned: " ++ jsonDumps cr.2.output))
    message ++ "\n\nPrevious tool results:\n" ++ results_str ++
      "\n\nNow provide your response:"

/-- The synthetic answer returned on hitting the iteration bound
(tool_agent.py lines 169-171). -/
def maxIterSummary (tool_results : List (ToolCall × ToolResult)) : String :=
  "I" ++ squote ++ "ve used the maximum number of tool calls. Here" ++
    squote ++ "s what I found:\n" ++
    String.intercalate "\n"
      (tool_results.map (fun cr => "- " ++ cr.1.name ++ ": " ++ cr.2.output))

/-- The `while iterations < max_tool_iterations` loop of
`chat_with_tools` (tool_agent.py lines 134-171).  `respond i ctx` is the
model's response to the i-th `self.chat(ctx)` call (the claims quantify
over every sequence of model responses), `parse` is `_parse_tool_call`,
`exec` is `executor.execute`, and `fuel` is
`max_tool_iterations - iterations`.  Each iteration either returns the
plain response (no tool call parsed) or executes exactly one tool and
continues; exhausted fuel returns the synthetic summary. -/
def loopFrom (respond : Nat → String → String)
    (parse : String → Option ToolCall) (exec : ToolCall → ToolResult) :
    Nat → Nat → String → List (ToolCall × ToolResult) →
    String × List (ToolCall × ToolResult)
  | 0, _, _, acc => (maxIterSummary acc, acc)
  | fuel + 1, i, message, acc =>
    let response := respond i (buildContextMessage message acc)
    match parse response with
    | none => (response, acc)
    | some call =>
      let result := exec call
      let acc1 := acc ++ [(call, result)]
      let message1 :=
        if result.success then message
        else
          message ++ "\n\nNote: Tool " ++ call.name ++ " failed with: " ++
            (match result.error with | some e => e | none => "None")
      loopFrom respond parse exec fuel (i + 1) message1 acc1

/-- `ToolAgent.chat_with_tools` (tool_agent.py lines 114-175), returning
the response text together with the executed `(call, result)` pairs. -/
def chat_with_tools (max_tool_iterations : Nat)
    (respond : Nat → String → String) (parse : String → Option ToolCall)
    (exec : ToolCall → ToolResult) (message : String) :
    String × List (ToolCall × ToolResult) :=
  loopFrom respond parse exec max_tool_iterations 0 message []

end ToolLoop

/-! ## hashlib.sha256 — FIPS 180-4, over `Nat` with explicit mod 2^32 -/

namespace SHA256

/-- The 32-bit mask, 2^32 − 1. -/
def mask32 : Nat := 4294967295

/-- Rotate a 32-bit word right by `n`. -/
def rotr (x n : Nat) : Nat :=
  ((x >>> n) ||| (x <<< (32 - n))) &&& mask32

/-- The 32-bit complement. -/
def bnot32 (x : Nat) : Nat := x ^^^ mask32

/-- Σ0 of FIPS 180-4. -/
def bigSigma0 (x : Nat) : Nat := rotr x 2 ^^^ rotr x 13 ^^^ rotr x 22

/-- Σ1 of FIPS 180-4. -/
def bigSigma1 (x : Nat) : Nat := rotr x 6 ^^^ rotr x 11 ^^^ rotr x 25

/-- σ0 of FIPS 180-4. -/
def smallSigma0 (x : Nat) : Nat := rotr x 7 ^^^ rotr x 18 ^^^ (x >>> 3)

/-- σ1 of FIPS 180-4. -/
def smallSigma1 (x : Nat) : Nat := rotr x 17 ^^^ rotr x 19 ^^^ (x >>> 10)

/-- Ch of FIPS 180-4. -/
def ch (x y z : Nat) : Nat := (x &&& y) ^^^ (bnot32 x &&& z)

/-- Maj of FIPS 180-4. -/
def maj (x y z : Nat) : Nat := (x &&& y) ^^^ (x &&& z) ^^^ (y &&& z)

/-- The 64 round constants K (FIPS 180-4 §4.2.2, written in decimal). -/
def K : List Nat :=
  [1116352408, 1899447441, 3049323471, 3921009573,
   961987163, 1508970993, 2453635748, 2870763221,
   3624381080, 310598401, 607225278, 1426881987,
   1925078388, 2162078206, 2614888103, 3248222580,
   3835390401, 4022224774, 264347078, 604807628,
   770255983, 1249150122, 1555081692, 1996064986,
   2554220882, 2821834349, 2952996808, 3210313671,
   3336571891, 3584528711, 113926993, 338241895,
   666307205, 773529912, 1294757372, 1396182291,
   1695183700, 1986661051, 2177026350, 2456956037,
   2730485921, 2820302411, 3259730800, 3345764771,
   3516065817, 3600352804, 4094571909, 275423344,
   430227734, 506948616, 659060556, 883997877,
   958139571, 1322822218, 1537002063, 1747873779,
   1955562222, 2024104815, 2227730452, 2361852424,
   2428436474, 2756734187, 3204031479, 3329325298]

/-- Eight 32-bit hash words. -/
structure Hash8 where
  a : Nat
  b : Nat
  c : Nat
  d : Nat
  e : Nat
  f : Nat
  g : Nat
  h : Nat
deriving Repr, DecidableEq

/-- Initial hash value H(0) (FIPS 180-4 §5.3.3, written in decimal). -/
def initH : Hash8 :=
  ⟨1779033703, 3144134277, 1013904242, 2773480762,
   1359893119, 2600822924, 528734635, 1541459225⟩

/-- One compression round, fed the pair `(K[t], W[t])`. -/
def round (s : Hash8) (kw : Nat × Nat) : Hash8 :=
  let t1 := (s.h + bigSigma1 s.e + ch s.e s.f s.g + kw.1 + kw.2) % 4294967296
  let t2 := (bigSigma0 s.a + maj s.a s.b s.c) % 4294967296
  ⟨(t1 + t2) % 4294967296, s.a, s.b, s.c, (s.d + t1) % 4294967296, s.e, s.f, s.g⟩

/-- Extend a message schedule by `steps` further words. -/
def extendSchedule : Nat → List Nat → List Nat
  | 0, acc => acc
  | steps + 1, acc =>
    let t := acc.length
    let w := (smallSigma1 (acc.getD (t - 2) 0) + acc.getD (t - 7) 0 +
              smallSigma0 (acc.getD (t - 15) 0) + acc.getD (t - 16) 0) % 4294967296
    extendSchedule steps (acc ++ [w])

/-- Compress one 16-word block into the hash state. -/
def compress (h0 : Hash8) (block : List Nat) : Hash8 :=
  let ws := extendSchedule 48 block
  let s := (K.zip ws).foldl round h0
  ⟨(h0.a + s.a) % 4294967296, (h0.b + s.b) % 4294967296,
   (h0.c + s.c) % 4294967296, (h0.d + s.d) % 4294967296,
   (h0.e + s.e) % 4294967296, (h0.f + s.f) % 4294967296,
   (h0.g + s.g) % 4294967296, (h0.h + s.h) % 4294967296⟩

/-- Split a list into chunks of `n + 1` elements (the last may be short). -/
def chunksOf (n : Nat) : List α → List (List α)
  | [] => []
  | a :: t => ((a :: t).take (n + 1)) :: chunksOf n ((a :: t).drop (n + 1))
termination_by l => l.length
decreasing_by
  simp [List.length_drop]
  omega

/-- Big-endian word from bytes. -/
def wordBE (bytes : List Nat) : Nat :=
  bytes.foldl (fun acc b => acc * 256 + b) 0

/-- The `k` low-order bytes of `v`, big-endian. -/
def toBytesBE : Nat → Nat → List Nat
  | 0, _ => []
  | k + 1, v => toBytesBE k (v >>> 8) ++ [v % 256]

/-- Number of zero pad bytes for a message of `len` bytes. -/
def padZeroCount (len : Nat) : Nat := (119 - len % 64) % 64

/-- SHA-256 padding: 0x80, zeros, then the 64-bit big-endian bit length,
reaching a multiple of 64 bytes. -/
def pad (msg : List Nat) : List Nat :=
  msg ++ 0x80 :: (List.replicate (padZeroCount msg.length) 0 ++
    toBytesBE 8 (8 * msg.length))

/-- The digest as eight 32-bit words. -/
def sha256Words (msg : List Nat) : Hash8 :=
  (chunksOf 63 (pad msg)).foldl
    (fun h block => compress h ((chunksOf 3 block).map wordBE)) initH

/-- The digest as 32 bytes. -/
def sha256Bytes (msg : List Nat) : List Nat :=
  let h := sha256Words msg
  ([h.a, h.b, h.c, h.d, h.e, h.f, h.g, h.h].map (toBytesBE 4)).flatten

/-- Lowercase hex digit character for a nibble: digits start at code
point 48, letters at 97 = 87 + 10. -/
def hexChar (n : Nat) : Char :=
  if n < 10 then Char.ofNat (48 + n) else Char.ofNat (87 + n)

/-- High/low nibbles of each byte, in order. -/
def toNibbles (bytes : List Nat) : List Nat :=
  (bytes.map (fun b => [b / 16, b % 16])).flatten

/-- UTF-8 encoding of one scalar value (Python `str.encode()`). -/
def utf8Char (c : Char) : List Nat :=
  let n := c.toNat
  if n < 128 then [n]
  else if n < 2048 then [192 + n / 64, 128 + n % 64]
  else if n < 65536 then [224 + n / 4096, 128 + (n / 64) % 64, 128 + n % 64]
  else [240 + n / 262144, 128 + (n / 4096) % 64, 128 + (n / 64) % 64, 128 + n % 64]

/-- UTF-8 encoding of a string. -/
def utf8Encode (s : String) : List Nat :=
  (s.data.map utf8Char).flatten

/-- `hashlib.sha256(s.encode()).hexdigest()`. -/
def sha256hex (s : String) : String :=
  String.mk ((toNibbles (sha256Bytes (utf8Encode s))).map hexChar)

end SHA256

/-! ## handlers.py — collection naming -/

namespace Handlers

/-- ASCII lowering of one character (Python `str.lower()` restricted to
ASCII, which covers every path the claims quantify over). -/
def asciiLowerChar (c : Char) : Char :=
  if 'A' ≤ c ∧ c ≤ 'Z' then Char.ofNat (c.toNat + 32) else c

/-- ASCII `str.lower()`. -/
def asciiLower (s : String) : String :=
  String.mk (s.data.map asciiLowerChar)

/-- Python `Path(p).name`: the final path component.  pathlib drops empty
and `"."` components when parsing, so the name is the last remaining
component (and `""` for a bare root). -/
def pathName (p : String) : String :=
  String.mk (((splitChar '/' p.data).filter
    (fun l => (l != []) && (l != ['.']))).getLastD [])

/-- `get_collection_name_for_path` (handlers.py lines 18-26): first 12 hex
characters of sha256 of the path, and the last path component lowercased,
sanitized to alphanumerics-or-underscore, truncated to 20. -/
def get_collection_name_for_path (codebase_path : String) : String :=
  let path_hash := strTake (SHA256.sha256hex codebase_path) 12
  let dir_name := asciiLower (pathName codebase_path)
  let dir_name2 := strTake
    (String.mk (dir_name.data.map (fun c => if c.isAlphanum then c else '_'))) 20
  "codebase_" ++ dir_name2 ++ "_" ++ path_hash

/-- The collection name as §4.6 of the spec words it:
`codebase_<slug>_<first12-of-sha256(abs_path)>`, where slug is the last
path component lowercased with non-alphanumerics replaced by `_`,
truncated to 20. -/
def specCollectionName (p : String) : String :=
  let slug := strTake
    (String.mk ((asciiLower (pathName p)).data.map
      (fun c => if c.isAlphanum then c else '_'))) 20
  "codebase_" ++ slug ++ "_" ++ strTake (SHA256.sha256hex p) 12

/-- A family of pairwise distinct slash-free paths, used to exhibit a
collection-name collision. -/
def xPath (n : Nat) : String := String.mk (List.replicate (n + 20) 'x')

/-- Base-16 value of a nibble list, head as the low digit. -/
def hexVal : List Nat → Nat
  | [] => 0
  | d :: t => d + 16 * hexVal t

/-- The 12 leading digest nibbles that determine a name's hash part. -/
def hash12Digits (p : String) : List Nat :=
  (SHA256.toNibbles (SHA256.sha256Bytes (SHA256.utf8Encode p))).take 12

end Handlers

/-! # Theorems -/

/-! ## C4 — budget arithmetic -/

/-- C4: for every tracker whose budget is set to `B` (nonzero, since
Python's `get_budget_percentage` divides by the budget) and whose recorded
total is `T`, `get_budget_remaining` is `max 0 (B − T)`,
`get_budget_percentage` is `min 100 (T/B·100)`, and `is_over_budget` holds
exactly when the remaining budget is ≤ 0. -/
theorem tokens_budget_math (t : Tokens.TokenTracker) (B : Int)
    (hB : t.budget = some B) (_hB0 : B ≠ 0) :
    t.get_budget_remaining =
      some (max 0 (B - t.get_session_stats.total_tokens)) ∧
    t.get_budget_percentage =
      some (min 100 (((t.get_session_stats.total_tokens : ℚ) / (B : ℚ)) * 100)) ∧
    (t.is_over_budget = true ↔
      max 0 (B - t.get_session_stats.total_tokens) ≤ 0) := by
  refine ⟨?_, ?_, ?_⟩
  · simp [Tokens.TokenTracker.get_budget_remaining, hB]
  · simp [Tokens.TokenTracker.get_budget_percentage, hB]
  · simp [Tokens.TokenTracker.is_over_budget,
      Tokens.TokenTracker.get_budget_remaining, hB]

/-- Witness for C4 at a tracker with budget 200 and one 100+50 row. -/
theorem tokens_budget_math_witness :
    Tokens.TokenTracker.get_budget_remaining ⟨some 200, [⟨100, 50, "m"⟩]⟩ =
      some (max 0 (200 -
        (Tokens.TokenTracker.get_session_stats ⟨some 200, [⟨100, 50, "m"⟩]⟩).total_tokens)) ∧
    Tokens.TokenTracker.get_budget_percentage ⟨some 200, [⟨100, 50, "m"⟩]⟩ =
      some (min 100
        ((((Tokens.TokenTracker.get_session_stats ⟨some 200, [⟨100, 50, "m"⟩]⟩).total_tokens : ℚ) /
          ((200 : Int) : ℚ)) * 100)) ∧
    (Tokens.TokenTracker.is_over_budget ⟨some 200, [⟨100, 50, "m"⟩]⟩ = true ↔
      max 0 (200 -
        (Tokens.TokenTracker.get_session_stats ⟨some 200, [⟨100, 50, "m"⟩]⟩).total_tokens) ≤ 0) :=
  tokens_budget_math ⟨some 200, [⟨100, 50, "m"⟩]⟩ 200 rfl (by decide)

/-! ## C10 — tracker without a budget -/

/-- C10: a tracker whose budget is `None` reports `None` for both
remaining budget and percentage and is never over budget, whatever usage
was recorded. -/
theorem tokens_no_budget (t : Tokens.TokenTracker) (h : t.budget = none) :
    t.get_budget_remaining = none ∧
    t.get_budget_percentage = none ∧
    t.is_over_budget = false := by
  refine ⟨?_, ?_, ?_⟩
  · simp [Tokens.TokenTracker.get_budget_remaining, h]
  · simp [Tokens.TokenTracker.get_budget_percentage, h]
  · simp [Tokens.TokenTracker.is_over_budget,
      Tokens.TokenTracker.get_budget_remaining, h]

/-- Witness for C10 at a budget-less tracker with one recorded row. -/
theorem tokens_no_budget_witness :
    Tokens.TokenTracker.get_budget_remaining ⟨none, [⟨7, 9, "m"⟩]⟩ = none ∧
    Tokens.TokenTracker.get_budget_percentage ⟨none, [⟨7, 9, "m"⟩]⟩ = none ∧
    Tokens.TokenTracker.is_over_budget ⟨none, [⟨7, 9, "m"⟩]⟩ = false :=
  tokens_no_budget ⟨none, [⟨7, 9, "m"⟩]⟩ rfl

/-! ## C5 — cascade delete -/

/-- C5: after `delete st sid`, no message row and no token-usage row
referencing session `sid` remains, and the session row itself is gone;
the transition is a single atomic state change. -/
theorem session_delete_cascade (st : SessionStore.Store) (sid : String) :
    ((SessionStore.delete st sid).1.messages.all
      (fun m => m.session_id != sid)) = true ∧
    ((SessionStore.delete st sid).1.token_usage.all
      (fun u => u.session_id != sid)) = true ∧
    ((SessionStore.delete st sid).1.sessions.all
      (fun s => s.id != sid)) = true := by
  refine ⟨?_, ?_, ?_⟩
  · simp [SessionStore.delete, List.all_eq_true, List.mem_filter]
  · simp only [SessionStore.delete, List.all_eq_true, List.mem_map]
    rintro u ⟨v, hv, rfl⟩
    have hvs := (List.mem_filter.mp hv).2
    cases hmid : v.message_id with
    | none => simpa [hmid] using hvs
    | some mid =>
      simp only [hmid]
      split <;> simpa using hvs
  · simp [SessionStore.delete, List.all_eq_true, List.mem_filter]

/-! ## C2 — usage recording per turn -/

/-- C2 counterexample: a streaming turn that completes (chunks
`["Hel", "lo"]`) records no `TokenUsage` row at all — the claim requires
exactly one — and persists the assistant message with `token_count = 0`
instead of the turn's output-token count. -/
theorem chat_stream_usage_counterexample :
    (AgentCore.chat_stream ⟨[], ⟨none, []⟩⟩ "hi" ["Hel", "lo"]).1.tracker.rows.length ≠ 1 ∧
    (AgentCore.chat_stream ⟨[], ⟨none, []⟩⟩ "hi" ["Hel", "lo"]).1.conversation.getLast? =
      some ⟨"assistant", "Hello", 0⟩ := by
  constructor
  · decide
  · rfl

/-- C2 amended: a completed non-streaming turn records exactly one
`TokenUsage` row carrying the LLM-reported counts and model name and
persists the assistant message with its output-token count, whereas a
completed streaming turn records no `TokenUsage` row and persists the
assistant message with `token_count = 0`. -/
theorem chat_records_usage (st : AgentCore.AgentState) (msg : String)
    (resp : AgentCore.LLMResponse) (chunks : List String) :
    (AgentCore.chat st msg resp).1.tracker.rows =
      st.tracker.rows ++
        [⟨(resp.input_tokens : Int), (resp.output_tokens : Int), resp.model⟩] ∧
    (AgentCore.chat st msg resp).1.conversation =
      st.conversation ++
        [⟨"user", msg, 0⟩, ⟨"assistant", resp.content, resp.output_tokens⟩] ∧
    (AgentCore.chat_stream st msg chunks).1.tracker.rows = st.tracker.rows ∧
    (AgentCore.chat_stream st msg chunks).1.conversation =
      st.conversation ++
        [⟨"user", msg, 0⟩, ⟨"assistant", String.join chunks, 0⟩] := by
  refine ⟨?_, ?_, ?_, ?_⟩ <;>
    simp [AgentCore.chat, AgentCore.chat_stream, AgentCore._record_message,
      AgentCore._record_usage, Tokens.TokenTracker.record]

/-! ## C3 — streaming termination notification -/

/-- C3 counterexample: a streaming turn in which the model stream raises
after one chunk (the `except` branch of `chat_send`) emits the chunk
notification but no `done: true` notification at all, so the count of
done notifications is 0, not 1. -/
theorem stream_done_counterexample :
    (Handlers.chatSendStreamNotifs ⟨["Hel"], false⟩ none).countP
      (·.isDone) ≠ 1 ∧
    Handlers.chatSendStreamNotifs ⟨["Hel"], false⟩ none =
      [Handlers.ChatNotification.chunk "Hel"] := by
  constructor
  · decide
  · rfl

/-- C3 amended: for every streaming turn whose model stream completes
without raising, exactly one `done: true` notification is emitted, it is
the last `chat.stream` notification of the turn, and it is preceded by
exactly the chunk notifications in issue order. -/
theorem stream_done_last (run : Handlers.StreamRun)
    (stats : Option Tokens.SessionTokenStats) (h : run.ok = true) :
    (Handlers.chatSendStreamNotifs run stats).countP (·.isDone) = 1 ∧
    (Handlers.chatSendStreamNotifs run stats).getLast? =
      some (.done stats) ∧
    Handlers.chatSendStreamNotifs run stats =
      run.chunks.map Handlers.ChatNotification.chunk ++ [.done stats] := by
  have hchunks : ∀ l : List String,
      (l.map Handlers.ChatNotification.chunk).countP (·.isDone) = 0 := by
    intro l
    induction l with
    | nil => rfl
    | cons a t ih => simp [Handlers.ChatNotification.isDone, ih]
  refine ⟨?_, ?_, ?_⟩
  · simp [Handlers.chatSendStreamNotifs, h, List.countP_append,
      hchunks run.chunks, Handlers.ChatNotification.isDone]
  · simp [Handlers.chatSendStreamNotifs, h]
  · simp [Handlers.chatSendStreamNotifs, h]

/-- Witness for C3 at a two-chunk stream that completes. -/
theorem stream_done_last_witness :
    (Handlers.chatSendStreamNotifs ⟨["Hel", "lo"], true⟩ none).countP
      (·.isDone) = 1 ∧
    (Handlers.chatSendStreamNotifs ⟨["Hel", "lo"], true⟩ none).getLast? =
      some (.done none) ∧
    Handlers.chatSendStreamNotifs ⟨["Hel", "lo"], true⟩ none =
      ["Hel", "lo"].map Handlers.ChatNotification.chunk ++ [.done none] :=
  stream_done_last ⟨["Hel", "lo"], true⟩ none rfl

/-! ## C9 — intent parsing tolerance -/

/-- C9 counterexample: entities given as the list `[" a "]` are kept
verbatim by `Intent.from_dict` — they are not trimmed to the ordered
non-empty tokens `["a"]` the claim requires. -/
theorem intent_entities_list_counterexample :
    (IntentMod.Intent.from_dict
      { entities := some (.ofList [" a "]) }).entities = [" a "] ∧
    (IntentMod.Intent.from_dict
      { entities := some (.ofList [" a "]) }).entities ≠
      IntentMod.specEntityTokensOfList [" a "] := by
  constructor
  · rfl
  · decide

/-- C9 amended: any `intent_type` outside research/organize/control (and a
missing one) parses as research; entities given as a comma-joined string
normalise to the ordered non-empty trimmed tokens, while entities given
as a list are kept exactly as given (missing entities give `[]`). -/
theorem intent_from_dict_tolerance (d : IntentMod.IntentData) :
    (∀ s, d.intent_type = some s → s ≠ "research" → s ≠ "organize" →
      s ≠ "control" → (IntentMod.Intent.from_dict d).type = .research) ∧
    (d.intent_type = none →
      (IntentMod.Intent.from_dict d).type = .research) ∧
    (∀ s, d.entities = some (.ofString s) →
      (IntentMod.Intent.from_dict d).entities =
        IntentMod.specEntityTokensOfString s) ∧
    (∀ l, d.entities = some (.ofList l) →
      (IntentMod.Intent.from_dict d).entities = l) ∧
    (d.entities = none → (IntentMod.Intent.from_dict d).entities = []) := by
  refine ⟨?_, ?_, ?_, ?_, ?_⟩
  · intro s h h1 h2 h3
    simp [IntentMod.Intent.from_dict, h, h1, h2, h3]
  · intro h
    simp [IntentMod.Intent.from_dict, h]
  · intro s h
    simp only [IntentMod.Intent.from_dict, h, IntentMod.splitEntities,
      IntentMod.specEntityTokensOfString, IntentMod.specEntityTokensOfList,
      List.map_map]
    rfl
  · intro l h
    simp [IntentMod.Intent.from_dict, h]
  · intro h
    simp [IntentMod.Intent.from_dict, h]

/-- Witness for C9 at an unknown intent type and a comma-joined string. -/
theorem intent_from_dict_tolerance_witness :
    (IntentMod.Intent.from_dict { intent_type := some "weird",
                                  entities := some (.ofString " a , b ") }).type =
      .research ∧
    (IntentMod.Intent.from_dict { intent_type := some "weird",
                                  entities := some (.ofString " a , b ") }).entities =
      IntentMod.specEntityTokensOfString " a , b " :=
  ⟨(intent_from_dict_tolerance { intent_type := some "weird",
                                 entities := some (.ofString " a , b ") }).1
      "weird" rfl (by decide) (by decide) (by decide),
   (intent_from_dict_tolerance { intent_type := some "weird",
                                 entities := some (.ofString " a , b ") }).2.2.1
      " a , b " rfl⟩

/-! ## C1 — context builder token bound -/

/-- The 4-chars-per-token estimate is at least 1. -/
theorem estimateTokens_pos (s : String) : 1 ≤ Context.estimateTokens s := by
  unfold Context.estimateTokens
  exact_mod_cast Nat.succ_le_succ (Nat.zero_le _)

/-- Every history message is charged at least one token. -/
theorem msgTokens_pos (m : Context.Msg) : 1 ≤ Context.msgTokens m := by
  unfold Context.msgTokens
  split
  · exact estimateTokens_pos m.content
  · omega

/-- Step 1 keeps the running total within the budget, provided a truthy
system prompt's estimate fits the budget. -/
theorem sysStep_le (budget : Int) (sp : Option String) (h0 : 0 ≤ budget)
    (hsys : ∀ s, sp = some s → s ≠ "" → Context.estimateTokens s ≤ budget) :
    (Context.sysStep sp).total_tokens ≤ budget := by
  unfold Context.sysStep
  split
  next h =>
    cases sp with
    | none => simp [pyTruthy] at h
    | some s =>
      simp only [Option.getD_some]
      exact hsys s rfl (by simpa [pyTruthy] using h)
  next => exact h0

/-- Step 2 keeps the running total within the budget. -/
theorem ragStep_le (config : Context.ContextConfig) (budget : Int)
    (acc : Context.BuildAcc) (rc : Option String)
    (hacc : acc.total_tokens ≤ budget) :
    (Context.ragStep config budget acc rc).1.total_tokens ≤ budget := by
  unfold Context.ragStep
  split
  · dsimp only
    split
    next h => exact le_of_lt h
    next => exact hacc
  · exact hacc

/-- Step 3 keeps the running total within the budget. -/
theorem summaryStep_le (config : Context.ContextConfig) (budget : Int)
    (acc : Context.BuildAcc) (histLen : Nat) (cache : Option String)
    (hacc : acc.total_tokens ≤ budget) :
    (Context.summaryStep config budget acc histLen cache).1.total_tokens ≤
      budget := by
  unfold Context.summaryStep
  split
  · split
    · dsimp only
      split
      next h => exact le_of_lt h
      next => exact hacc
    · exact hacc
  · exact hacc

/-- Step 4 never spends more than a non-negative remaining budget. -/
theorem addRecent_tokens_le (l : List Context.Msg) (remaining : Int)
    (hr : 0 ≤ remaining) :
    (Context.addRecent l remaining).tokens ≤ remaining := by
  induction l generalizing remaining with
  | nil => simpa [Context.addRecent] using hr
  | cons m rest ih =>
    rw [Context.addRecent]
    split
    next h =>
      have hrec := ih (remaining - Context.msgTokens m) (by omega)
      simp only
      omega
    next => simpa using hr

/-- Step 4 adds nothing when the remaining budget is not positive. -/
theorem addRecent_tokens_zero (l : List Context.Msg) (remaining : Int)
    (hr : remaining ≤ 0) :
    (Context.addRecent l remaining).tokens = 0 := by
  cases l with
  | nil => rfl
  | cons m rest =>
    rw [Context.addRecent]
    have := msgTokens_pos m
    split
    next h => omega
    next => rfl

/-- C1 counterexample: with `max_tokens = 10`, `reserved_for_response = 5`
and a 25-character system prompt (estimate 7 > budget 5), `build` emits a
window whose `total_tokens` (8) exceeds
`max_tokens − reserved_for_response + estimate(user_message)` (6): the
system prompt is appended without any budget check. -/
theorem context_build_bound_counterexample :
    (Context.build { max_tokens := 10, reserved_for_response := 5 } none []
        "hi" (some "qqqqqqqqqqqqqqqqqqqqqqqqq") none).total_tokens >
      Context.ContextConfig.available_for_context
          { max_tokens := 10, reserved_for_response := 5 } +
        Context.estimateTokens "hi" := by
  decide

/-- C1 amended: unconditionally — in particular also when an oversized
system prompt breaks the token bound — the built window contains the
current user message as its last entry; and whenever
`reserved_for_response ≤ max_tokens` and any truthy system prompt's
estimate fits within `budget = max_tokens − reserved_for_response`, the
window satisfies `total_tokens ≤ budget + estimate(user_message)`. -/
theorem context_build_bound (cfg : Context.ContextConfig)
    (cache : Option String) (hist : List Context.Msg) (user : String)
    (sp rc : Option String) :
    (Context.build cfg cache hist user sp rc).messages.getLast? =
      some ⟨"user", user⟩ ∧
    (0 ≤ cfg.available_for_context →
      (∀ s, sp = some s → s ≠ "" →
        Context.estimateTokens s ≤ cfg.available_for_context) →
      (Context.build cfg cache hist user sp rc).total_tokens ≤
        cfg.available_for_context + Context.estimateTokens user) := by
  constructor
  · simp only [Context.build]
    exact List.getLast?_concat _
  · intro hbudget hsys
    have h1 := sysStep_le cfg.available_for_context sp hbudget hsys
    have h2 := ragStep_le cfg cfg.available_for_context (Context.sysStep sp)
      rc h1
    have h3 := summaryStep_le cfg cfg.available_for_context
      (Context.ragStep cfg cfg.available_for_context (Context.sysStep sp) rc).1
      hist.length cache h2
    simp only [Context.build]
    set t3 := (Context.summaryStep cfg cfg.available_for_context
      (Context.ragStep cfg cfg.available_for_context (Context.sysStep sp) rc).1
      hist.length cache).1.total_tokens with ht3
    set remaining := cfg.available_for_context - t3 -
      Context.estimateTokens user with hrem
    have hu := estimateTokens_pos user
    rcases le_or_lt 0 remaining with hr | hr
    · have h4 := addRecent_tokens_le
        (Context.getRecent hist cfg.recent_messages) remaining hr
      omega
    · have h4 := addRecent_tokens_zero
        (Context.getRecent hist cfg.recent_messages) remaining (le_of_lt hr)
      omega

/-- Witness for C1: the last-entry conjunct at the counterexample's
oversized system prompt (where the bound fails), and the bound conjunct
with the default config, empty history and no system prompt. -/
theorem context_build_bound_witness :
    (Context.build { max_tokens := 10, reserved_for_response := 5 } none []
        "hi" (some "qqqqqqqqqqqqqqqqqqqqqqqqq") none).messages.getLast? =
      some ⟨"user", "hi"⟩ ∧
    (Context.build {} none [] "hi" none none).total_tokens ≤
      Context.ContextConfig.available_for_context {} +
        Context.estimateTokens "hi" :=
  ⟨(context_build_bound { max_tokens := 10, reserved_for_response := 5 }
      none [] "hi" (some "qqqqqqqqqqqqqqqqqqqqqqqqq") none).1,
   (context_build_bound {} none [] "hi" none none).2 (by decide)
      (fun s h => nomatch h)⟩

/-! ## C6 — tool loop bound -/

/-- The loop invariant behind C6: from any iteration state, the number of
executed calls grows by at most `fuel`, and if every model response
parses as a tool call the loop runs its full fuel and returns the
synthetic summary of the executed calls. -/
theorem tool_loop_from_bound (respond : Nat → String → String)
    (parse : String → Option ToolLoop.ToolCall)
    (exec : ToolLoop.ToolCall → ToolLoop.ToolResult)
    (fuel i : Nat) (msg : String)
    (acc : List (ToolLoop.ToolCall × ToolLoop.ToolResult)) :
    (ToolLoop.loopFrom respond parse exec fuel i msg acc).2.length ≤
      acc.length + fuel ∧
    ((∀ j ctx, (parse (respond j ctx)).isSome) →
      (ToolLoop.loopFrom respond parse exec fuel i msg acc).2.length =
        acc.length + fuel ∧
      (ToolLoop.loopFrom respond parse exec fuel i msg acc).1 =
        ToolLoop.maxIterSummary
          (ToolLoop.loopFrom respond parse exec fuel i msg acc).2) := by
  induction fuel generalizing i msg acc with
  | zero => simp [ToolLoop.loopFrom]
  | succ n ih =>
    cases hp : parse (respond i (ToolLoop.buildContextMessage msg acc)) with
    | none =>
      have hred : ToolLoop.loopFrom respond parse exec (n + 1) i msg acc =
          (respond i (ToolLoop.buildContextMessage msg acc), acc) := by
        simp only [ToolLoop.loopFrom, hp]
      rw [hred]
      refine ⟨by simp, ?_⟩
      intro hall
      have hj := hall i (ToolLoop.buildContextMessage msg acc)
      rw [hp] at hj
      simp at hj
    | some call =>
      have hred : ToolLoop.loopFrom respond parse exec (n + 1) i msg acc =
          ToolLoop.loopFrom respond parse exec n (i + 1)
            (if (exec call).success then msg
             else msg ++ "\n\nNote: Tool " ++ call.name ++ " failed with: " ++
               (match (exec call).error with | some e => e | none => "None"))
            (acc ++ [(call, exec call)]) := by
        simp only [ToolLoop.loopFrom, hp]
      rw [hred]
      have hrec := ih (i + 1)
        (if (exec call).success then msg
         else msg ++ "\n\nNote: Tool " ++ call.name ++ " failed with: " ++
           (match (exec call).error with | some e => e | none => "None"))
        (acc ++ [(call, exec call)])
      refine ⟨?_, ?_⟩
      · have h1 := hrec.1
        simp only [List.length_append, List.length_cons, List.length_nil] at h1 ⊢
        omega
      · intro hall
        have h2 := hrec.2 hall
        refine ⟨?_, h2.2⟩
        have h3 := h2.1
        simp only [List.length_append, List.length_cons, List.length_nil] at h3 ⊢
        omega

/-- C6: `chat_with_tools` executes at most `max_tool_iterations` tool
calls whatever the model answers (termination is structural on the
remaining iterations), and when the model always emits a tool call it
executes exactly `max_tool_iterations` of them and returns the synthetic
summary listing the executed calls and their outcomes. -/
theorem tool_loop_bound (maxIter : Nat) (respond : Nat → String → String)
    (parse : String → Option ToolLoop.ToolCall)
    (exec : ToolLoop.ToolCall → ToolLoop.ToolResult) (message : String) :
    (ToolLoop.chat_with_tools maxIter respond parse exec message).2.length ≤
      maxIter ∧
    ((∀ j ctx, (parse (respond j ctx)).isSome) →
      (ToolLoop.chat_with_tools maxIter respond parse exec message).2.length =
        maxIter ∧
      (ToolLoop.chat_with_tools maxIter respond parse exec message).1 =
        ToolLoop.maxIterSummary
          (ToolLoop.chat_with_tools maxIter respond parse exec message).2) := by
  have h := tool_loop_from_bound respond parse exec maxIter 0 message []
  simpa [ToolLoop.chat_with_tools] using h

/-- Witness for C6: three iterations with a model that always calls a
tool — exactly 3 executions and the synthetic summary. -/
theorem tool_loop_bound_witness :
    (ToolLoop.chat_with_tools 3 (fun _ _ => "call")
      (fun _ => some ⟨"noop", [], ""⟩) (fun _ => ⟨true, "ok", none⟩)
      "hi").2.length = 3 ∧
    (ToolLoop.chat_with_tools 3 (fun _ _ => "call")
      (fun _ => some ⟨"noop", [], ""⟩) (fun _ => ⟨true, "ok", none⟩)
      "hi").1 =
      ToolLoop.maxIterSummary
        (ToolLoop.chat_with_tools 3 (fun _ _ => "call")
          (fun _ => some ⟨"noop", [], ""⟩) (fun _ => ⟨true, "ok", none⟩)
          "hi").2 :=
  (tool_loop_bound 3 (fun _ _ => "call") (fun _ => some ⟨"noop", [], ""⟩)
    (fun _ => ⟨true, "ok", none⟩) "hi").2 (fun _ _ => rfl)

/-! ## C7 — domain error codes -/

/-- C7 counterexample: on a server with no sessions (and the LLM client
constructible), the reply to a `session.load` request naming id "zzz" is
a *successful* JSON-RPC response whose result is the dict
`{"error": "Session not found: zzz"}` — it carries no error member at
all, hence not the code −32001 the claim requires. -/
theorem session_load_counterexample :
    Rpc.handle (Rpc.sessionLoadOnly ⟨[], [], []⟩ none)
        ⟨"session.load", ⟨some "zzz"⟩, some 1⟩ =
      some ⟨some 1, some (.errorDict "Session not found: zzz"), none⟩ ∧
    ((Rpc.handle (Rpc.sessionLoadOnly ⟨[], [], []⟩ none)
        ⟨"session.load", ⟨some "zzz"⟩, some 1⟩).bind
      (fun r => r.err)).map Prod.fst ≠ some Rpc.SESSION_NOT_FOUND := by
  constructor
  · rfl
  · decide

/-- C7 amended: protocol.py defines −32001/−32002/−32003/−32004 but the
server never sends them.  A request naming an unknown session gets a
successful response whose result carries the error text
`Session not found: <id>` — whatever the LLM credential environment,
since the unknown-session branch returns before `_init_agent`.  The only
error codes this method table's dispatch ever attaches are −32601
(method not found) and −32603 (a raising handler); in particular, a
`session.load` naming an *existing* session on a server without Azure
credentials raises `ValueError` inside `_init_agent` and is surfaced as
−32603, not −32001. -/
theorem session_load_unknown_id (st : SessionStore.Store)
    (llmErr : Option String) (sid : String) (rid : Int) (hsid : sid ≠ "")
    (hfind : st.sessions.find? (fun s => s.id == sid) = none) :
    Rpc.handle (Rpc.sessionLoadOnly st llmErr)
        ⟨"session.load", ⟨some sid⟩, some rid⟩ =
      some ⟨some rid, some (.errorDict ("Session not found: " ++ sid)),
        none⟩ ∧
    (∀ req : Rpc.RequestFrame Rpc.LoadParams,
      ∀ r : Rpc.ResponseFrame Rpc.SessionLoadResult, ∀ c : Int, ∀ m : String,
        Rpc.handle (Rpc.sessionLoadOnly st llmErr) req = some r →
        r.err = some (c, m) → c = -32601 ∨ c = -32603) ∧
    (∀ st2 : SessionStore.Store, ∀ srow : SessionStore.SessionRow,
      ∀ e : String, ∀ rid2 : Int,
        st2.sessions.find? (fun s => s.id == sid) = some srow →
        Rpc.handle (Rpc.sessionLoadOnly st2 (some e))
            ⟨"session.load", ⟨some sid⟩, some rid2⟩ =
          some ⟨some rid2, none, some (-32603, e)⟩) := by
  refine ⟨?_, ?_, ?_⟩
  · simp [Rpc.handle, Rpc.sessionLoadOnly, Rpc.session_load, pyTruthy,
      hsid, hfind]
  · intro req r c m hh herr
    unfold Rpc.handle at hh
    rcases hreg : Rpc.sessionLoadOnly st llmErr req.method with _ | h
    · rw [hreg] at hh
      cases hid : req.id with
      | none => rw [hid] at hh; simp at hh
      | some i =>
        rw [hid] at hh
        simp only [Option.some.injEq] at hh
        rw [← hh] at herr
        simp only [Option.some.injEq, Prod.mk.injEq] at herr
        exact Or.inl herr.1.symm
    · have hfun : h = Rpc.session_load st llmErr := by
        unfold Rpc.sessionLoadOnly at hreg
        split at hreg
        · exact (Option.some.inj hreg).symm
        · exact absurd hreg (by simp)
      subst hfun
      rw [hreg] at hh
      dsimp only at hh
      cases hv : Rpc.session_load st llmErr req.params with
      | ok v =>
        rw [hv] at hh
        dsimp only at hh
        cases hid : req.id with
        | none => rw [hid] at hh; simp at hh
        | some i =>
          rw [hid] at hh
          simp only [Option.some.injEq] at hh
          rw [← hh] at herr
          simp at herr
      | raised e =>
        rw [hv] at hh
        dsimp only at hh
        cases hid : req.id with
        | none => rw [hid] at hh; simp at hh
        | some i =>
          rw [hid] at hh
          simp only [Option.some.injEq] at hh
          rw [← hh] at herr
          simp only [Option.some.injEq, Prod.mk.injEq] at herr
          exact Or.inr herr.1.symm
  · intro st2 srow e rid2 hfind2
    simp [Rpc.handle, Rpc.sessionLoadOnly, Rpc.session_load, pyTruthy,
      hsid, hfind2]

/-- Witness for C7's amended claim: the concrete unknown-session reply on
an empty, credential-less server, and the −32603 reply for a found
session without credentials. -/
theorem session_load_unknown_id_witness :
    Rpc.handle (Rpc.sessionLoadOnly ⟨[], [], []⟩ (some "no creds"))
        ⟨"session.load", ⟨some "zzz"⟩, some 7⟩ =
      some ⟨some 7, some (.errorDict ("Session not found: " ++ "zzz")),
        none⟩ ∧
    Rpc.handle
        (Rpc.sessionLoadOnly ⟨[⟨"zzz", "S", none⟩], [], []⟩ (some "no creds"))
        ⟨"session.load", ⟨some "zzz"⟩, some 8⟩ =
      some ⟨some 8, none, some (-32603, "no creds")⟩ :=
  ⟨(session_load_unknown_id ⟨[], [], []⟩ (some "no creds") "zzz" 7
      (by decide) rfl).1,
   (session_load_unknown_id ⟨[], [], []⟩ (some "no creds") "zzz" 7
      (by decide) rfl).2.2 ⟨[⟨"zzz", "S", none⟩], [], []⟩ ⟨"zzz", "S", none⟩
      "no creds" 8 rfl⟩

/-! ## C8 — collection naming -/

/-- Splitting on a separator that does not occur returns the whole list. -/
theorem splitChar_of_not_mem (sep : Char) (l : List Char)
    (h : ∀ c ∈ l, c ≠ sep) : splitChar sep l = [l] := by
  induction l with
  | nil => rfl
  | cons c t ih =>
    rw [splitChar]
    rw [if_neg (h c (List.mem_cons_self c t))]
    rw [ih (fun x hx => h x (List.mem_cons_of_mem c hx))]

/-- `toBytesBE` returns exactly `k` bytes. -/
theorem toBytesBE_length (k v : Nat) : (SHA256.toBytesBE k v).length = k := by
  induction k generalizing v with
  | zero => rfl
  | succ n ih => simp [SHA256.toBytesBE, ih]

/-- Every byte `toBytesBE` returns is below 256. -/
theorem toBytesBE_lt (k v x : Nat) (hx : x ∈ SHA256.toBytesBE k v) :
    x < 256 := by
  induction k generalizing v with
  | zero => simp [SHA256.toBytesBE] at hx
  | succ n ih =>
    simp only [SHA256.toBytesBE, List.mem_append, List.mem_singleton] at hx
    rcases hx with hx | hx
    · exact ih _ hx
    · omega

/-- The digest is 32 bytes. -/
theorem sha256Bytes_length (m : List Nat) :
    (SHA256.sha256Bytes m).length = 32 := by
  simp [SHA256.sha256Bytes, toBytesBE_length]

/-- Every digest byte is below 256. -/
theorem sha256Bytes_lt (m : List Nat) (b : Nat)
    (hb : b ∈ SHA256.sha256Bytes m) : b < 256 := by
  simp only [SHA256.sha256Bytes] at hb
  rw [List.mem_flatten] at hb
  obtain ⟨l, hl, hbl⟩ := hb
  simp only [List.mem_map] at hl
  obtain ⟨w, _, rfl⟩ := hl
  exact toBytesBE_lt _ _ _ hbl

/-- `toNibbles` doubles the length. -/
theorem toNibbles_length (bs : List Nat) :
    (SHA256.toNibbles bs).length = 2 * bs.length := by
  induction bs with
  | nil => rfl
  | cons b t ih =>
    simp [SHA256.toNibbles] at ih ⊢
    omega

/-- Nibbles of sub-256 bytes are below 16. -/
theorem toNibbles_lt (bs : List Nat) (hbs : ∀ b ∈ bs, b < 256) :
    ∀ d ∈ SHA256.toNibbles bs, d < 16 := by
  intro d hd
  unfold SHA256.toNibbles at hd
  rw [List.mem_flatten] at hd
  obtain ⟨l, hl, hdl⟩ := hd
  simp only [List.mem_map] at hl
  obtain ⟨b, hb, rfl⟩ := hl
  have := hbs b hb
  simp only [List.mem_cons, List.not_mem_nil, or_false] at hdl
  rcases hdl with rfl | rfl
  · omega
  · omega

/-- The hash part of a collection name is 12 nibbles long. -/
theorem hash12Digits_length (p : String) :
    (Handlers.hash12Digits p).length = 12 := by
  unfold Handlers.hash12Digits
  rw [List.length_take, toNibbles_length, sha256Bytes_length]
  decide

/-- Every nibble of the hash part is below 16. -/
theorem hash12Digits_lt (p : String) :
    ∀ d ∈ Handlers.hash12Digits p, d < 16 := by
  intro d hd
  exact toNibbles_lt _ (sha256Bytes_lt _) d (List.mem_of_mem_take hd)

/-- `hexVal` of an `n`-digit list is below `16 ^ n`. -/
theorem hexVal_lt (l : List Nat) (hl : ∀ d ∈ l, d < 16) :
    Handlers.hexVal l < 16 ^ l.length := by
  induction l with
  | nil => simp [Handlers.hexVal]
  | cons d t ih =>
    rw [Handlers.hexVal, List.length_cons, pow_succ]
    have h1 := hl d (List.mem_cons_self d t)
    have h2 := ih (fun x hx => hl x (List.mem_cons_of_mem d hx))
    omega

/-- `hexVal` is injective on equal-length lists of sub-16 digits. -/
theorem hexVal_injOn (l1 l2 : List Nat) (hlen : l1.length = l2.length)
    (h1 : ∀ d ∈ l1, d < 16) (h2 : ∀ d ∈ l2, d < 16)
    (hv : Handlers.hexVal l1 = Handlers.hexVal l2) : l1 = l2 := by
  induction l1 generalizing l2 with
  | nil =>
    cases l2 with
    | nil => rfl
    | cons b t => simp at hlen
  | cons a t ih =>
    cases l2 with
    | nil => simp at hlen
    | cons b u =>
      simp only [List.length_cons, Nat.add_right_cancel_iff] at hlen
      rw [Handlers.hexVal, Handlers.hexVal] at hv
      have ha := h1 a (List.mem_cons_self a t)
      have hb := h2 b (List.mem_cons_self b u)
      have hab : a = b ∧ Handlers.hexVal t = Handlers.hexVal u := by omega
      rw [hab.1,
        ih u hlen (fun x hx => h1 x (List.mem_cons_of_mem a hx))
          (fun x hx => h2 x (List.mem_cons_of_mem b hx)) hab.2]

/-- The collection name of an all-`'x'` path: constant 20-`'x'` slug, and
the hash part is the hex rendering of the 12 leading digest nibbles. -/
theorem xPath_collection_name (n : Nat) :
    Handlers.get_collection_name_for_path (Handlers.xPath n) =
      "codebase_" ++ String.mk (List.replicate 20 'x') ++ "_" ++
        String.mk ((Handlers.hash12Digits (Handlers.xPath n)).map
          SHA256.hexChar) := by
  have hsplit : splitChar '/' (List.replicate (n + 20) 'x') =
      [List.replicate (n + 20) 'x'] :=
    splitChar_of_not_mem _ _
      (fun c hc => by rw [List.eq_of_mem_replicate hc]; decide)
  have hname : Handlers.pathName (Handlers.xPath n) = Handlers.xPath n := by
    unfold Handlers.pathName Handlers.xPath
    rw [show (String.mk (List.replicate (n + 20) 'x')).data =
      List.replicate (n + 20) 'x' from rfl, hsplit]
    have hc1 : (List.replicate (n + 20) 'x' != ([] : List Char)) = true := by
      simp [bne_iff_ne]
    have hc2 : (List.replicate (n + 20) 'x' != ['.']) = true := by
      simp only [bne_iff_ne, ne_eq]
      intro hEq
      have := congrArg List.length hEq
      simp at this
    simp [List.filter, hc1, hc2]
  have hlower : Handlers.asciiLower (Handlers.xPath n) = Handlers.xPath n := by
    unfold Handlers.asciiLower Handlers.xPath
    rw [show (String.mk (List.replicate (n + 20) 'x')).data =
      List.replicate (n + 20) 'x' from rfl]
    rw [List.map_replicate]
    rw [show Handlers.asciiLowerChar 'x' = 'x' from by decide]
  have hsan : (List.replicate (n + 20) 'x').map
      (fun c => if c.isAlphanum then c else '_') =
      List.replicate (n + 20) 'x' := by
    rw [List.map_replicate]
    rw [show (if ('x').isAlphanum then 'x' else '_') = 'x' from by decide]
  unfold Handlers.get_collection_name_for_path
  rw [hname, hlower]
  unfold Handlers.xPath SHA256.sha256hex strTake Handlers.hash12Digits
  dsimp only
  rw [hsan, List.take_replicate, show min 20 (n + 20) = 20 from by omega,
    List.map_take]

/-- Distinct indices give distinct paths. -/
theorem xPath_inj (m n : Nat) (h : m ≠ n) :
    Handlers.xPath m ≠ Handlers.xPath n := by
  intro hEq
  have := congrArg (fun s : String => s.data.length) hEq
  simp [Handlers.xPath] at this
  omega

/-- Equality of `Fin.mk` values gives equality of the underlying numbers
(stated separately so the extraction stays syntactic). -/
theorem fin_mk_inj {N a b : Nat} {ha : a < N} {hb : b < N}
    (h : (⟨a, ha⟩ : Fin N) = ⟨b, hb⟩) : a = b :=
  congrArg Fin.val h

/-- C8 counterexample: the claim "differing paths give differing names" is
false — names have a fixed finite shape (slug of at most 20 characters
plus 12 hex characters), so by pigeonhole over the infinite family of
all-`'x'` paths two distinct paths share a collection name. -/
theorem collection_name_collision :
    ∃ p q : String, p ≠ q ∧
      Handlers.get_collection_name_for_path p =
        Handlers.get_collection_name_for_path q := by
  have hfin : ∀ k : Nat,
      Handlers.hexVal (Handlers.hash12Digits (Handlers.xPath k)) < 16 ^ 12 := by
    intro k
    have h := hexVal_lt (Handlers.hash12Digits (Handlers.xPath k))
      (hash12Digits_lt _)
    rwa [hash12Digits_length] at h
  obtain ⟨m, n, hmn, heq⟩ := Finite.exists_ne_map_eq_of_infinite
    (fun k : Nat =>
      (⟨Handlers.hexVal (Handlers.hash12Digits (Handlers.xPath k)),
        hfin k⟩ : Fin (16 ^ 12)))
  have hval : Handlers.hexVal (Handlers.hash12Digits (Handlers.xPath m)) =
      Handlers.hexVal (Handlers.hash12Digits (Handlers.xPath n)) :=
    fin_mk_inj heq
  have hdig : Handlers.hash12Digits (Handlers.xPath m) =
      Handlers.hash12Digits (Handlers.xPath n) :=
    hexVal_injOn _ _ (by rw [hash12Digits_length, hash12Digits_length])
      (hash12Digits_lt _) (hash12Digits_lt _) hval
  refine ⟨Handlers.xPath m, Handlers.xPath n, xPath_inj m n hmn, ?_⟩
  rw [xPath_collection_name, xPath_collection_name, hdig]

/-- C8 amended: the name derivation is the pure function worded by the
spec (slug from the lowercased, sanitized, truncated last path component
and the first 12 hex characters of sha256 of the path), so equal paths
always give bytewise-identical names; differing paths may collide, since
only the 12-hex-character prefix and the truncated slug distinguish
them. -/
theorem collection_name_deterministic (p q : String) :
    Handlers.get_collection_name_for_path p =
      Handlers.specCollectionName p ∧
    (p = q → Handlers.get_collection_name_for_path p =
      Handlers.get_collection_name_for_path q) :=
  ⟨rfl, fun h => by rw [h]⟩

/-- Witness for C8's amended claim at the one-character path "x". -/
theorem collection_name_deterministic_witness :
    Handlers.get_collection_name_for_path "x" =
      Handlers.specCollectionName "x" ∧
    Handlers.get_collection_name_for_path "x" =
      Handlers.get_collection_name_for_path "x" :=
  ⟨(collection_name_deterministic "x" "x").1,
   (collection_name_deterministic "x" "x").2 rfl⟩

end OpenAgent
